import Mathlib

/-!
Verification of the ignite-report-ai repository.

Part A models the benchmark estimation / comparison / store core described
by the specification (sections 3, 4 and 8).  That core's reference script is
not among the provided source files, so its definitions are modelled from
the spec, each marked `Modelled from the spec:` in its doc comment.

Part B embeds the PPTX extraction code that is present in the source:
`src/api/pptx-extract.py` and `src/docs/extract_pptx_structured.py`.
-/

/-! ## Part A: benchmark core, modelled from the spec -/

namespace Ignite

/-- Modelled from the spec: metric directionality (section 4.3), whether a
higher or a lower raw value is better for a given metric. -/
inductive Direction where
  | higher_better : Direction
  | lower_better : Direction
deriving DecidableEq

/-- Modelled from the spec: the qualitative performance verdict of a
comparison (section 3, Comparison Result `status`). -/
inductive Status where
  | excellent : Status
  | good : Status
  | average : Status
  | poor : Status
deriving DecidableEq

/-- Modelled from the spec: the Benchmark Range record (section 3), the
summary of one metric within one group.  Numeric fields are modelled as
rationals.  The derived `confidence` scalar is modelled as the standalone
function `confidence` of `sample_size` (section 4.2), and the wall-clock
`last_updated` timestamp is omitted from the model. -/
structure BenchmarkRange where
  metric : String
  dims : List (String × String)
  p25 : ℚ
  p50 : ℚ
  p75 : ℚ
  mean : ℚ
  sample_size : ℕ
deriving DecidableEq

/-- Modelled from the spec: the Comparison Result record (section 3).  The
free-text `interpretation` field is presentational and is omitted. -/
structure ComparisonResult where
  metric : String
  actual_value : ℚ
  benchmark_median : ℚ
  benchmark_low : ℚ
  benchmark_high : ℚ
  percentile : ℚ
  status : Status
  deviation_percent : ℚ
deriving DecidableEq

/-- Modelled from the spec: the confidence scalar of section 4.2: `0.3` when
`sample_size < 5`, otherwise `min(0.95, 0.3 + 0.15 * log10(sample_size))`. -/
noncomputable def confidence (sample_size : ℕ) : ℝ :=
  if sample_size < 5 then 0.3
  else min 0.95 (0.3 + 0.15 * Real.logb 10 sample_size)

/-- Modelled from the spec: the piecewise percentile mapping of section 4.3
across the three quartile anchors, before the final clamp. -/
def percentileRaw (value p25 p50 p75 : ℚ) : ℚ :=
  if value ≤ p25 then
    if 0 < p25 then 25 * (value / p25) else 0
  else if value ≤ p50 then
    if p50 = p25 then 37.5 else 25 + 25 * ((value - p25) / (p50 - p25))
  else if value ≤ p75 then
    if p75 = p50 then 62.5 else 50 + 25 * ((value - p50) / (p75 - p50))
  else
    if p75 = p50 then 87.5 else min 100 (75 + 25 * ((value - p75) / (p75 - p50)))

/-- Modelled from the spec: the final clamp of the percentile to `[0, 100]`
(section 4.3, "Final result clamped to `[0, 100]`"). -/
def clampPct (x : ℚ) : ℚ :=
  max 0 (min 100 x)

/-- Modelled from the spec: status classification by direction
(section 4.3). -/
def statusOf (dir : Direction) (pct : ℚ) : Status :=
  match dir with
  | .higher_better =>
      if 75 ≤ pct then .excellent
      else if 50 ≤ pct then .good
      else if 25 ≤ pct then .average
      else .poor
  | .lower_better =>
      if pct ≤ 25 then .excellent
      else if pct ≤ 50 then .good
      else if pct ≤ 75 then .average
      else .poor

/-- Modelled from the spec: the Comparison Engine contract
`compare(metric, value, benchmark) -> ComparisonResult` of section 4.3.
The metric-direction lookup consumed from collaborators (section 6) is
passed in as the function `dir`. -/
def compare (dir : String → Direction) (metric : String) (value : ℚ)
    (b : BenchmarkRange) : ComparisonResult :=
  let pct := clampPct (percentileRaw value b.p25 b.p50 b.p75)
  { metric := metric
    actual_value := value
    benchmark_median := b.p50
    benchmark_low := b.p25
    benchmark_high := b.p75
    percentile := pct
    status := statusOf (dir metric) pct
    deviation_percent :=
      if b.p50 = 0 then 0 else (value - b.p50) / b.p50 * 100 }

/-- Modelled from the spec: the Benchmark Estimator contract of section 4.2:
`estimate(values, metric, dims)` returns no result when `len(values) < 3`;
otherwise it sorts the sample ascending, takes `p50` as the standard median,
`p25`/`p75` as minimum/maximum for samples of size exactly 3 and otherwise
as the sorted values at indices `floor(n * 0.25)` and `floor(n * 0.75)`
(nearest-rank), and the arithmetic mean. -/
def estimate (metric : String) (dims : List (String × String))
    (values : List ℚ) : Option BenchmarkRange :=
  if values.length < 3 then none
  else
    let n := values.length
    let s := List.insertionSort (· ≤ ·) values
    let p50 :=
      if n % 2 = 1 then s.getD (n / 2) 0
      else (s.getD (n / 2 - 1) 0 + s.getD (n / 2) 0) / 2
    let p25 := if n = 3 then s.getD 0 0 else s.getD (n / 4) 0
    let p75 := if n = 3 then s.getD (n - 1) 0 else s.getD (3 * n / 4) 0
    some { metric := metric, dims := dims, p25 := p25, p50 := p50,
           p75 := p75, mean := values.sum / n, sample_size := n }

/-- Modelled from the spec: one serialized field value of the persisted
JSON-like store (sections 4.4 and 6): a string, a number, a count, or a
list of dimension pairs. -/
inductive FieldVal where
  | str : String → FieldVal
  | num : ℚ → FieldVal
  | cnt : ℕ → FieldVal
  | dim : List (String × String) → FieldVal
deriving DecidableEq

/-- Modelled from the spec: serialization of one Benchmark Range into its
named fields (section 4.4, Benchmark Store `save`). -/
def saveRange (b : BenchmarkRange) : List (String × FieldVal) :=
  [("metric", .str b.metric), ("dims", .dim b.dims), ("p25", .num b.p25),
   ("p50", .num b.p50), ("p75", .num b.p75), ("mean", .num b.mean),
   ("sample_size", .cnt b.sample_size)]

/-- Modelled from the spec: reconstruction of one Benchmark Range from its
serialized fields; a missing or ill-typed required field makes
deserialization fail with a structural error (section 7). -/
def loadRange (fields : List (String × FieldVal)) : Option BenchmarkRange :=
  match fields.lookup "metric", fields.lookup "dims", fields.lookup "p25",
      fields.lookup "p50", fields.lookup "p75", fields.lookup "mean",
      fields.lookup "sample_size" with
  | some (.str m), some (.dim d), some (.num a), some (.num b),
      some (.num c), some (.num e), some (.cnt n) =>
      some { metric := m, dims := d, p25 := a, p50 := b, p75 := c,
             mean := e, sample_size := n }
  | _, _, _, _, _, _, _ => none

/-- Modelled from the spec: the Benchmark Store `save` contract
(section 4.4): the persisted structure is a top-level mapping from
CompositeKey string to the serialized Benchmark Range fields. -/
def save (m : List (String × BenchmarkRange)) :
    List (String × List (String × FieldVal)) :=
  m.map (fun p => (p.1, saveRange p.2))

/-- Modelled from the spec: the Benchmark Store `load` contract
(section 4.4); any entry whose fields fail to reconstruct makes the whole
load fail (no partial reconstruction, section 7). -/
def load : List (String × List (String × FieldVal)) →
    Option (List (String × BenchmarkRange))
  | [] => some []
  | (k, f) :: rest =>
    match loadRange f, load rest with
    | some b, some m => some ((k, b) :: m)
    | _, _ => none

end Ignite

/-! ## Part B: PPTX extraction, embedded from the source -/

namespace ApiPptx

/-- `MAX_FILE_SIZE_BYTES = 50 * 1024 * 1024` from `src/api/pptx-extract.py`. -/
def MAX_FILE_SIZE_BYTES : ℕ := 50 * 1024 * 1024

/-- `PPTX_MAGIC_BYTES = b'PK'` from `src/api/pptx-extract.py`, as byte
values. -/
def PPTX_MAGIC_BYTES : List ℕ := [80, 75]

/-- `extract_table` from `src/api/pptx-extract.py`.  A table is modelled as
its list of rows, each row the list of its cells' raw text; `cell.text.strip()`
becomes `String.trim`.  The first row becomes the headers; every later row
becomes one association list pairing `headers[j]` with `cells[j]` for
`j < min(len(headers), len(cells))`, or, when the header list is empty,
pairing `"Column {j+1}"` with `cells[j]` for every `j`. -/
def extract_table (table : List (List String)) :
    List String × List (List (String × String)) :=
  match table with
  | [] => ([], [])
  | first :: rest =>
    let headers := first.map (·.trim)
    let rows := rest.map (fun row =>
      let cells := row.map (·.trim)
      if headers.isEmpty then
        cells.enum.map (fun p => ("Column " ++ toString (p.1 + 1), p.2))
      else
        headers.zip cells)
    (headers, rows)

/-- One entry of the `tables` list built by `extract_presentation` in
`src/api/pptx-extract.py`. -/
structure TableEntry where
  slideNumber : ℕ
  slideTitle : Option String
  tableIndex : ℕ
  headers : List String
  rows : List (List (String × String))
  rowCount : ℕ
deriving DecidableEq

/-- One slide as seen by `extract_presentation`: its (already stripped)
title, if any, and its shapes in order, where `some t` is a shape holding
table `t` and `none` is any non-table shape. -/
structure Slide where
  title : Option String
  shapes : List (Option (List (List String)))

/-- The inner shape loop of `extract_presentation`: walks one slide's
shapes, extracting each table; a table whose extracted `rows` list is empty
is skipped, otherwise an entry is appended and the per-slide `table_index`
counter `idx` is incremented. -/
def extractSlideTables (slideNum : ℕ) (title : Option String) :
    List (Option (List (List String))) → ℕ → List TableEntry
  | [], _ => []
  | none :: shapes, idx => extractSlideTables slideNum title shapes idx
  | some t :: shapes, idx =>
    let td := extract_table t
    if td.2.isEmpty then extractSlideTables slideNum title shapes idx
    else
      { slideNumber := slideNum, slideTitle := title, tableIndex := idx,
        headers := td.1, rows := td.2, rowCount := td.2.length }
        :: extractSlideTables slideNum title shapes (idx + 1)

/-- The outer slide loop of `extract_presentation`: slides are numbered from
`n + 1` upward (the source enumerates from 1). -/
def extractAux : List Slide → ℕ → List TableEntry
  | [], _ => []
  | s :: rest, n => extractSlideTables (n + 1) s.title s.shapes 0 ++ extractAux rest (n + 1)

/-- The result of `extract_presentation` from `src/api/pptx-extract.py`:
the slide count metadata and the flat list of table entries. -/
structure ExtractResult where
  slideCount : ℕ
  tables : List TableEntry

/-- `extract_presentation` from `src/api/pptx-extract.py`. -/
def extract_presentation (slides : List Slide) : ExtractResult :=
  { slideCount := slides.length, tables := extractAux slides 0 }

/-- `validate_pptx_file` from `src/api/pptx-extract.py`.  File bytes are
modelled as a list of byte values; the checks run in source order:
extension, size, magic bytes. -/
def validate_pptx_file (file_bytes : List ℕ) (filename : String) :
    Option String :=
  if ¬ (filename.toLower.endsWith ".pptx") then
    some "Please upload a .pptx file"
  else if MAX_FILE_SIZE_BYTES < file_bytes.length then
    some "File size must be less than 50MB"
  else if file_bytes.length < 2 ∨ file_bytes.take 2 ≠ PPTX_MAGIC_BYTES then
    some "Invalid PowerPoint file format"
  else
    none

end ApiPptx

namespace DocsPptx

/-- `extract_table` from `src/docs/extract_pptx_structured.py`.  Identical
to the api variant except that the headerless fallback keys are `"col_{j}"`
with `j` counted from 0. -/
def extract_table (table : List (List String)) :
    List String × List (List (String × String)) :=
  match table with
  | [] => ([], [])
  | first :: rest =>
    let headers := first.map (·.trim)
    let rows := rest.map (fun row =>
      let cells := row.map (·.trim)
      if headers.isEmpty then
        cells.enum.map (fun p => ("col_" ++ toString p.1, p.2))
      else
        headers.zip cells)
    (headers, rows)

end DocsPptx


/-! ## Theorems -/

/-- C1: for every metric, every Benchmark Range with `p25 <= p50 <= p75` and
`sample_size >= 3`, and every observed value (extreme and negative included),
the `percentile` field of `compare` lies in `[0, 100]`. -/
theorem compare_percentile_in_range (dir : String → Ignite.Direction)
    (metric : String) (value : ℚ) (b : Ignite.BenchmarkRange)
    (_h1 : b.p25 ≤ b.p50) (_h2 : b.p50 ≤ b.p75) (_h3 : 3 ≤ b.sample_size) :
    0 ≤ (Ignite.compare dir metric value b).percentile ∧
      (Ignite.compare dir metric value b).percentile ≤ 100 := by
  have hp : (Ignite.compare dir metric value b).percentile =
      Ignite.clampPct (Ignite.percentileRaw value b.p25 b.p50 b.p75) := rfl
  rw [hp]
  unfold Ignite.clampPct
  exact ⟨le_max_left 0 _, max_le (by norm_num) (min_le_left _ _)⟩

/-- C1 witness: a concrete extreme negative value against a concrete valid
benchmark stays within `[0, 100]`. -/
theorem compare_percentile_in_range_witness :
    0 ≤ (Ignite.compare (fun _ => Ignite.Direction.lower_better) "ctr" (-1000000)
        { metric := "ctr", dims := [], p25 := 1, p50 := 2, p75 := 3,
          mean := 2, sample_size := 3 }).percentile ∧
      (Ignite.compare (fun _ => Ignite.Direction.lower_better) "ctr" (-1000000)
        { metric := "ctr", dims := [], p25 := 1, p50 := 2, p75 := 3,
          mean := 2, sample_size := 3 }).percentile ≤ 100 :=
  compare_percentile_in_range (fun _ => Ignite.Direction.lower_better) "ctr"
    (-1000000)
    { metric := "ctr", dims := [], p25 := 1, p50 := 2, p75 := 3,
      mean := 2, sample_size := 3 } (by decide) (by decide) (by decide)

/-- C7: the `deviation_percent` field of `compare` equals
`(value - p50) / p50 * 100` when `p50` is nonzero and `0` when `p50 = 0`,
so the division is guarded. -/
theorem compare_deviation_guarded (dir : String → Ignite.Direction)
    (metric : String) (value : ℚ) (b : Ignite.BenchmarkRange) :
    (b.p50 ≠ 0 →
      (Ignite.compare dir metric value b).deviation_percent =
        (value - b.p50) / b.p50 * 100) ∧
    (b.p50 = 0 →
      (Ignite.compare dir metric value b).deviation_percent = 0) := by
  constructor <;> intro h <;> simp [Ignite.compare, h]

/-- C7 witness: both guard branches at concrete inputs. -/
theorem compare_deviation_guarded_witness :
    (Ignite.compare (fun _ => Ignite.Direction.lower_better) "cpc" 3
      { metric := "cpc", dims := [], p25 := 1, p50 := 2, p75 := 4,
        mean := 2, sample_size := 3 }).deviation_percent = (3 - 2) / 2 * 100 ∧
    (Ignite.compare (fun _ => Ignite.Direction.lower_better) "cpc" 3
      { metric := "cpc", dims := [], p25 := 0, p50 := 0, p75 := 0,
        mean := 0, sample_size := 3 }).deviation_percent = 0 :=
  ⟨(compare_deviation_guarded (fun _ => Ignite.Direction.lower_better) "cpc" 3
      { metric := "cpc", dims := [], p25 := 1, p50 := 2, p75 := 4,
        mean := 2, sample_size := 3 }).1 (by decide),
   (compare_deviation_guarded (fun _ => Ignite.Direction.lower_better) "cpc" 3
      { metric := "cpc", dims := [], p25 := 0, p50 := 0, p75 := 0,
        mean := 0, sample_size := 3 }).2 rfl⟩

/-- C5: confidence is `0.3` for `sample_size < 5` (in particular exactly
`0.3` at 4) and `min(0.95, 0.3 + 0.15 * log10(sample_size))` otherwise, and
always lies in `[0.3, 0.95]`. -/
theorem confidence_spec :
    Ignite.confidence 4 = 0.3 ∧
    ∀ n : ℕ, 3 ≤ n →
      (n < 5 → Ignite.confidence n = 0.3) ∧
      (5 ≤ n → Ignite.confidence n =
        min 0.95 (0.3 + 0.15 * Real.logb 10 n)) ∧
      0.3 ≤ Ignite.confidence n ∧ Ignite.confidence n ≤ 0.95 := by
  have hbase : ∀ n : ℕ, n < 5 → Ignite.confidence n = 0.3 := by
    intro n h
    simp [Ignite.confidence, h]
  refine ⟨hbase 4 (by norm_num), ?_⟩
  intro n hn
  by_cases h : n < 5
  · refine ⟨fun _ => hbase n h, fun h5 => absurd h5 (by omega), ?_, ?_⟩
    · rw [hbase n h]
    · rw [hbase n h]
      norm_num
  · have h5 : 5 ≤ n := by omega
    have h1n : (1 : ℝ) ≤ (n : ℝ) := by
      exact_mod_cast Nat.one_le_iff_ne_zero.mpr (by omega)
    have hlog : 0 ≤ Real.logb 10 (n : ℝ) := Real.logb_nonneg (by norm_num) h1n
    have hval : Ignite.confidence n =
        min 0.95 (0.3 + 0.15 * Real.logb 10 n) := by
      simp [Ignite.confidence, h]
    refine ⟨fun hc => absurd hc h, fun _ => hval, ?_, ?_⟩
    · rw [hval]
      exact le_min (by norm_num) (by linarith)
    · rw [hval]
      exact min_le_left _ _

/-- C5 witness: at `sample_size = 4` the confidence is exactly `0.3` and the
bounds hold. -/
theorem confidence_spec_witness :
    (4 < 5 → Ignite.confidence 4 = 0.3) ∧
    (5 ≤ 4 → Ignite.confidence 4 =
      min 0.95 (0.3 + 0.15 * Real.logb 10 (4 : ℕ))) ∧
    0.3 ≤ Ignite.confidence 4 ∧ Ignite.confidence 4 ≤ 0.95 :=
  confidence_spec.2 4 (by decide)

/-- C3: `estimate` yields no Benchmark Range when there are fewer than 3
values, and every emitted Benchmark Range has `sample_size >= 3` (indeed
equal to the number of values). -/
theorem estimate_threshold (metric : String) (dims : List (String × String))
    (values : List ℚ) :
    (values.length < 3 → Ignite.estimate metric dims values = none) ∧
    (∀ b, Ignite.estimate metric dims values = some b →
      3 ≤ b.sample_size ∧ b.sample_size = values.length) := by
  constructor
  · intro h
    simp [Ignite.estimate, h]
  · intro b hb
    by_cases h : values.length < 3
    · simp [Ignite.estimate, h] at hb
    · simp only [Ignite.estimate, if_neg h] at hb
      rw [Option.some_inj] at hb
      subst hb
      refine ⟨?_, rfl⟩
      show 3 ≤ values.length
      omega

/-- C3 witness: two samples yield an explicit absence, and the `sample_size`
bound is instantiated at the same input. -/
theorem estimate_threshold_witness :
    (([(1 : ℚ), 2] : List ℚ).length < 3 →
      Ignite.estimate "cpm" [] [(1 : ℚ), 2] = none) ∧
    (∀ b, Ignite.estimate "cpm" [] [(1 : ℚ), 2] = some b →
      3 ≤ b.sample_size ∧ b.sample_size = ([(1 : ℚ), 2] : List ℚ).length) :=
  estimate_threshold "cpm" [] [(1 : ℚ), 2]

/-- C4 counterexample: the degenerate but valid benchmark produced by the
sample `[5, 5, 5]` has `p25 = p50 = p75 = 5`; comparing its own median falls
into the `value <= p25` branch of the percentile mapping and yields 25, not
50. -/
theorem compare_median_counterexample :
    Ignite.estimate "cpc" [] [(5 : ℚ), 5, 5] =
      some { metric := "cpc", dims := [], p25 := 5, p50 := 5, p75 := 5,
             mean := 5, sample_size := 3 } ∧
    (Ignite.compare (fun _ => Ignite.Direction.lower_better) "cpc" 5
      { metric := "cpc", dims := [], p25 := 5, p50 := 5, p75 := 5,
        mean := 5, sample_size := 3 }).percentile = 25 ∧
    (Ignite.compare (fun _ => Ignite.Direction.lower_better) "cpc" 5
      { metric := "cpc", dims := [], p25 := 5, p50 := 5, p75 := 5,
        mean := 5, sample_size := 3 }).percentile ≠ 50 := by
  refine ⟨?_, ?_, ?_⟩
  · norm_num [Ignite.estimate, List.insertionSort, List.orderedInsert]
  · norm_num [Ignite.compare, Ignite.clampPct, Ignite.percentileRaw]
  · norm_num [Ignite.compare, Ignite.clampPct, Ignite.percentileRaw]

/-- C4 (amended): for every metric and every valid Benchmark Range whose
`p25` is strictly below its `p50`, comparing the benchmark's own median
value yields percentile exactly 50. -/
theorem compare_median_percentile (dir : String → Ignite.Direction)
    (metric : String) (b : Ignite.BenchmarkRange) (h : b.p25 < b.p50) :
    (Ignite.compare dir metric b.p50 b).percentile = 50 := by
  have hne : ¬ b.p50 ≤ b.p25 := not_le.mpr h
  have hsub : b.p50 - b.p25 ≠ 0 := sub_ne_zero.mpr (ne_of_gt h)
  have hraw : Ignite.percentileRaw b.p50 b.p25 b.p50 b.p75 = 50 := by
    unfold Ignite.percentileRaw
    rw [if_neg hne, if_pos le_rfl, if_neg (ne_of_gt h), div_self hsub]
    norm_num
  have hp : (Ignite.compare dir metric b.p50 b).percentile =
      Ignite.clampPct (Ignite.percentileRaw b.p50 b.p25 b.p50 b.p75) := rfl
  rw [hp, hraw]
  unfold Ignite.clampPct
  norm_num

/-- C4 (amended) witness: a concrete non-degenerate benchmark at its own
median. -/
theorem compare_median_percentile_witness :
    (Ignite.compare (fun _ => Ignite.Direction.lower_better) "cpc" 2
      { metric := "cpc", dims := [], p25 := 1, p50 := 2, p75 := 4,
        mean := 2, sample_size := 3 }).percentile = 50 :=
  compare_median_percentile (fun _ => Ignite.Direction.lower_better) "cpc"
    { metric := "cpc", dims := [], p25 := 1, p50 := 2, p75 := 4,
      mean := 2, sample_size := 3 } (by decide)

/-- One Benchmark Range survives serialization and reconstruction intact. -/
theorem loadRange_saveRange (b : Ignite.BenchmarkRange) :
    Ignite.loadRange (Ignite.saveRange b) = some b := rfl

/-- The store round trip holds for every benchmark map, empty included. -/
theorem load_save_aux (m : List (String × Ignite.BenchmarkRange)) :
    Ignite.load (Ignite.save m) = some m := by
  induction m with
  | nil => rfl
  | cons p rest ih =>
    obtain ⟨k, b⟩ := p
    simp only [Ignite.save] at ih ⊢
    simp [Ignite.load, loadRange_saveRange, ih]

/-- C6: for every non-empty mapping from CompositeKey to Benchmark Range,
loading what was saved returns a mapping equal field-for-field to the
original. -/
theorem store_round_trip (m : List (String × Ignite.BenchmarkRange))
    (_h : m ≠ []) : Ignite.load (Ignite.save m) = some m :=
  load_save_aux m

/-- C6 witness: a concrete one-entry store round-trips. -/
theorem store_round_trip_witness :
    Ignite.load (Ignite.save [("cpc|platform:all", { metric := "cpc", dims := [("platform", "all")], p25 := 1, p50 := 2, p75 := 4, mean := 3, sample_size := 7 })]) =
      some [("cpc|platform:all", { metric := "cpc", dims := [("platform", "all")], p25 := 1, p50 := 2, p75 := 4, mean := 3, sample_size := 7 })] :=
  store_round_trip [("cpc|platform:all", { metric := "cpc", dims := [("platform", "all")], p25 := 1, p50 := 2, p75 := 4, mean := 3, sample_size := 7 })]
    (by simp)

/-- Indexing a sorted list with a default is monotone in the index. -/
theorem sorted_getD_mono (s : List ℚ) (hs : List.Sorted (· ≤ ·) s) {i j : ℕ}
    (hij : i ≤ j) (hj : j < s.length) : s.getD i 0 ≤ s.getD j 0 := by
  have hi : i < s.length := lt_of_le_of_lt hij hj
  rw [List.getD_eq_getElem s 0 hi, List.getD_eq_getElem s 0 hj]
  exact hs.rel_get_of_le (a := ⟨i, hi⟩) (b := ⟨j, hj⟩) hij

/-- The head of a sorted list is a lower bound for its members. -/
theorem sorted_getD_le_mem (s : List ℚ) (hs : List.Sorted (· ≤ ·) s)
    (x : ℚ) (hx : x ∈ s) : s.getD 0 0 ≤ x := by
  obtain ⟨i, hi, rfl⟩ := List.mem_iff_getElem.mp hx
  rw [← List.getD_eq_getElem s 0 hi]
  exact sorted_getD_mono s hs (Nat.zero_le i) hi

/-- The last element of a sorted list is an upper bound for its members. -/
theorem sorted_mem_le_getD_last (s : List ℚ) (hs : List.Sorted (· ≤ ·) s)
    (x : ℚ) (hx : x ∈ s) : x ≤ s.getD (s.length - 1) 0 := by
  obtain ⟨i, hi, rfl⟩ := List.mem_iff_getElem.mp hx
  rw [← List.getD_eq_getElem s 0 hi]
  exact sorted_getD_mono s hs (by omega) (by omega)

/-- Indexing within bounds lands in the list. -/
theorem getD_mem (s : List ℚ) (i : ℕ) (hi : i < s.length) :
    s.getD i 0 ∈ s := by
  rw [List.getD_eq_getElem s 0 hi]
  exact List.getElem_mem hi

/-- C2: for every list of at least 3 values, `estimate` emits a Benchmark
Range with `p25 <= p50 <= p75`; for samples of size exactly 3 its `p25` is
the minimum and its `p75` the maximum, and for larger samples `p25`/`p75`
are the sorted values at indices `floor(n * 0.25)` and `floor(n * 0.75)`. -/
theorem estimate_quartiles (metric : String) (dims : List (String × String))
    (values : List ℚ) (h3 : 3 ≤ values.length) :
    ∃ b, Ignite.estimate metric dims values = some b ∧
      b.p25 ≤ b.p50 ∧ b.p50 ≤ b.p75 ∧
      (values.length = 3 →
        b.p25 ∈ values ∧ (∀ x ∈ values, b.p25 ≤ x) ∧
        b.p75 ∈ values ∧ (∀ x ∈ values, x ≤ b.p75)) ∧
      (3 < values.length →
        b.p25 = (List.insertionSort (· ≤ ·) values).getD (values.length / 4) 0 ∧
        b.p75 =
          (List.insertionSort (· ≤ ·) values).getD (3 * values.length / 4) 0) := by
  have hn : ¬ values.length < 3 := not_lt.mpr h3
  simp only [Ignite.estimate, if_neg hn]
  obtain ⟨s, hs_def⟩ : ∃ s, List.insertionSort (· ≤ ·) values = s := ⟨_, rfl⟩
  rw [hs_def]
  have hs : List.Sorted (· ≤ ·) s := hs_def ▸ List.sorted_insertionSort _ values
  have hperm : s.Perm values := hs_def ▸ List.perm_insertionSort _ values
  have hlen : s.length = values.length := hperm.length_eq
  refine ⟨_, rfl, ?_, ?_, ?_, ?_⟩
  · dsimp only
    rcases eq_or_lt_of_le h3 with he | hgt
    · have h : values.length = 3 := he.symm
      simp only [h, if_true]
      exact sorted_getD_mono s hs (by omega) (by omega)
    · have hne : values.length ≠ 3 := by omega
      simp only [if_neg hne]
      by_cases hodd : values.length % 2 = 1
      · simp only [if_pos hodd]
        exact sorted_getD_mono s hs (by omega) (by omega)
      · simp only [if_neg hodd]
        have h1 : s.getD (values.length / 4) 0 ≤
            s.getD (values.length / 2 - 1) 0 :=
          sorted_getD_mono s hs (by omega) (by omega)
        have h2 : s.getD (values.length / 2 - 1) 0 ≤
            s.getD (values.length / 2) 0 :=
          sorted_getD_mono s hs (by omega) (by omega)
        linarith
  · dsimp only
    rcases eq_or_lt_of_le h3 with he | hgt
    · have h : values.length = 3 := he.symm
      simp only [h, if_true]
      exact sorted_getD_mono s hs (by omega) (by omega)
    · have hne : values.length ≠ 3 := by omega
      simp only [if_neg hne]
      by_cases hodd : values.length % 2 = 1
      · simp only [if_pos hodd]
        exact sorted_getD_mono s hs (by omega) (by omega)
      · simp only [if_neg hodd]
        have h2 : s.getD (values.length / 2 - 1) 0 ≤
            s.getD (values.length / 2) 0 :=
          sorted_getD_mono s hs (by omega) (by omega)
        have h3' : s.getD (values.length / 2) 0 ≤
            s.getD (3 * values.length / 4) 0 :=
          sorted_getD_mono s hs (by omega) (by omega)
        linarith
  · intro h
    dsimp only
    simp only [if_pos h]
    refine ⟨?_, ?_, ?_, ?_⟩
    · exact hperm.mem_iff.mp (getD_mem s 0 (by omega))
    · intro x hx
      exact sorted_getD_le_mem s hs x (hperm.mem_iff.mpr hx)
    · exact hperm.mem_iff.mp (getD_mem s (values.length - 1) (by omega))
    · intro x hx
      have hx' := sorted_mem_le_getD_last s hs x (hperm.mem_iff.mpr hx)
      have hidx : s.length - 1 = values.length - 1 := by omega
      rwa [hidx] at hx'
  · intro hgt
    have hne : values.length ≠ 3 := by omega
    dsimp only
    rw [if_neg hne, if_neg hne]
    exact ⟨rfl, rfl⟩

/-- C2 witness: the seven-point sample of spec section 8 yields
`p25 = 10 <= p50 = 12 <= p75 = 16` at sorted indices 1 and 5. -/
theorem estimate_quartiles_witness :
    ∃ b, Ignite.estimate "cpm" [] [(8 : ℚ), 10, 12, 12, 14, 16, 20] = some b ∧
      b.p25 ≤ b.p50 ∧ b.p50 ≤ b.p75 ∧
      (([(8 : ℚ), 10, 12, 12, 14, 16, 20] : List ℚ).length = 3 →
        b.p25 ∈ [(8 : ℚ), 10, 12, 12, 14, 16, 20] ∧
        (∀ x ∈ [(8 : ℚ), 10, 12, 12, 14, 16, 20], b.p25 ≤ x) ∧
        b.p75 ∈ [(8 : ℚ), 10, 12, 12, 14, 16, 20] ∧
        (∀ x ∈ [(8 : ℚ), 10, 12, 12, 14, 16, 20], x ≤ b.p75)) ∧
      (3 < ([(8 : ℚ), 10, 12, 12, 14, 16, 20] : List ℚ).length →
        b.p25 = (List.insertionSort (· ≤ ·)
          [(8 : ℚ), 10, 12, 12, 14, 16, 20]).getD
          (([(8 : ℚ), 10, 12, 12, 14, 16, 20] : List ℚ).length / 4) 0 ∧
        b.p75 = (List.insertionSort (· ≤ ·)
          [(8 : ℚ), 10, 12, 12, 14, 16, 20]).getD
          (3 * ([(8 : ℚ), 10, 12, 12, 14, 16, 20] : List ℚ).length / 4) 0) :=
  estimate_quartiles "cpm" [] [(8 : ℚ), 10, 12, 12, 14, 16, 20] (by decide)

/-- C8: `validate_pptx_file` returns `none` exactly when the lower-cased
filename ends with ".pptx", the byte length is at most 50 MiB, and there are
at least 2 bytes starting with "PK"; otherwise it returns the message of the
first failing check, in the order extension, size, magic bytes. -/
theorem validate_pptx_file_spec (file_bytes : List ℕ) (filename : String) :
    (ApiPptx.validate_pptx_file file_bytes filename = none ↔
      (filename.toLower.endsWith ".pptx" ∧
       file_bytes.length ≤ 50 * 1024 * 1024 ∧
       2 ≤ file_bytes.length ∧ file_bytes.take 2 = [80, 75])) ∧
    (¬ filename.toLower.endsWith ".pptx" →
      ApiPptx.validate_pptx_file file_bytes filename =
        some "Please upload a .pptx file") ∧
    (filename.toLower.endsWith ".pptx" →
      50 * 1024 * 1024 < file_bytes.length →
      ApiPptx.validate_pptx_file file_bytes filename =
        some "File size must be less than 50MB") ∧
    (filename.toLower.endsWith ".pptx" →
      file_bytes.length ≤ 50 * 1024 * 1024 →
      (file_bytes.length < 2 ∨ file_bytes.take 2 ≠ [80, 75]) →
      ApiPptx.validate_pptx_file file_bytes filename =
        some "Invalid PowerPoint file format") := by
  have hmax : ApiPptx.MAX_FILE_SIZE_BYTES = 50 * 1024 * 1024 := rfl
  have hmag : ApiPptx.PPTX_MAGIC_BYTES = [80, 75] := rfl
  unfold ApiPptx.validate_pptx_file
  rw [hmax, hmag]
  split_ifs with h1 h2 h3
  · simp_all
  · simp_all
    intro hlen
    rcases h3 with h | h
    · omega
    · exact h
  · simp_all
  · simp_all

/-- C8 witness: a tiny well-formed upload passes all three checks, and each
failure branch is exercised. -/
theorem validate_pptx_file_spec_witness :
    (ApiPptx.validate_pptx_file [80, 75, 3] "Deck.PPTX" = none ↔
      ("Deck.PPTX".toLower.endsWith ".pptx" ∧
       ([80, 75, 3] : List ℕ).length ≤ 50 * 1024 * 1024 ∧
       2 ≤ ([80, 75, 3] : List ℕ).length ∧
       ([80, 75, 3] : List ℕ).take 2 = [80, 75])) ∧
    (¬ "Deck.PPTX".toLower.endsWith ".pptx" →
      ApiPptx.validate_pptx_file [80, 75, 3] "Deck.PPTX" =
        some "Please upload a .pptx file") ∧
    ("Deck.PPTX".toLower.endsWith ".pptx" →
      50 * 1024 * 1024 < ([80, 75, 3] : List ℕ).length →
      ApiPptx.validate_pptx_file [80, 75, 3] "Deck.PPTX" =
        some "File size must be less than 50MB") ∧
    ("Deck.PPTX".toLower.endsWith ".pptx" →
      ([80, 75, 3] : List ℕ).length ≤ 50 * 1024 * 1024 →
      (([80, 75, 3] : List ℕ).length < 2 ∨
        ([80, 75, 3] : List ℕ).take 2 ≠ [80, 75]) →
      ApiPptx.validate_pptx_file [80, 75, 3] "Deck.PPTX" =
        some "Invalid PowerPoint file format") :=
  validate_pptx_file_spec [80, 75, 3] "Deck.PPTX"

/-- C9: both `extract_table` variants yield exactly one row entry per row
after the first (none at all for an empty or header-only table), and each
row entry is built over exactly `min(len(headers), len(cells))` indices when
the header list is non-empty — surplus cells are dropped and surplus
headers produce no key — and over all `len(cells)` indices otherwise. -/
theorem extract_table_row_shape (first : List String)
    (rest : List (List String)) (i : ℕ) :
    (ApiPptx.extract_table []).1 = [] ∧
    (ApiPptx.extract_table []).2 = [] ∧
    (ApiPptx.extract_table (first :: rest)).2.length = rest.length ∧
    ((ApiPptx.extract_table (first :: rest)).2.getD i []).length =
      (if first.isEmpty then (rest.getD i []).length
       else min first.length (rest.getD i []).length) ∧
    (DocsPptx.extract_table []).2 = [] ∧
    (DocsPptx.extract_table (first :: rest)).2.length = rest.length ∧
    ((DocsPptx.extract_table (first :: rest)).2.getD i []).length =
      (if first.isEmpty then (rest.getD i []).length
       else min first.length (rest.getD i []).length) := by
  refine ⟨rfl, rfl, ?_, ?_, rfl, ?_, ?_⟩
  · simp [ApiPptx.extract_table]
  · by_cases hi : i < rest.length
    · have hlen : (ApiPptx.extract_table (first :: rest)).2.length =
          rest.length := by
        simp [ApiPptx.extract_table]
      rw [List.getD_eq_getElem _ _
          (by omega : i < (ApiPptx.extract_table (first :: rest)).2.length),
        List.getD_eq_getElem _ _ hi]
      rcases first with _ | ⟨h0, t0⟩
      · simp [ApiPptx.extract_table]
      · simp [ApiPptx.extract_table]
    · have hlen : (ApiPptx.extract_table (first :: rest)).2.length =
          rest.length := by
        simp [ApiPptx.extract_table]
      rw [List.getD_eq_default _ _ (by omega),
        List.getD_eq_default _ _ (by omega)]
      rcases first with _ | ⟨h0, t0⟩
      · simp
      · simp
  · simp [DocsPptx.extract_table]
  · by_cases hi : i < rest.length
    · have hlen : (DocsPptx.extract_table (first :: rest)).2.length =
          rest.length := by
        simp [DocsPptx.extract_table]
      rw [List.getD_eq_getElem _ _
          (by omega : i < (DocsPptx.extract_table (first :: rest)).2.length),
        List.getD_eq_getElem _ _ hi]
      rcases first with _ | ⟨h0, t0⟩
      · simp [DocsPptx.extract_table]
      · simp [DocsPptx.extract_table]
    · have hlen : (DocsPptx.extract_table (first :: rest)).2.length =
          rest.length := by
        simp [DocsPptx.extract_table]
      rw [List.getD_eq_default _ _ (by omega),
        List.getD_eq_default _ _ (by omega)]
      rcases first with _ | ⟨h0, t0⟩
      · simp
      · simp

/-- Every entry the inner shape loop emits carries its slide number, a
non-empty rows list, and a `rowCount` equal to that list's length. -/
theorem mem_slideTables (num : ℕ) (title : Option String)
    (shapes : List (Option (List (List String)))) (idx : ℕ)
    (e : ApiPptx.TableEntry)
    (he : e ∈ ApiPptx.extractSlideTables num title shapes idx) :
    e.slideNumber = num ∧ e.rows ≠ [] ∧ e.rowCount = e.rows.length := by
  induction shapes generalizing idx with
  | nil => simp [ApiPptx.extractSlideTables] at he
  | cons sh rest ih =>
    rcases sh with _ | t
    · exact ih idx he
    · by_cases hemp : (ApiPptx.extract_table t).2.isEmpty
      · rw [ApiPptx.extractSlideTables, if_pos hemp] at he
        exact ih idx he
      · rw [ApiPptx.extractSlideTables, if_neg hemp] at he
        rcases List.mem_cons.mp he with h | h
        · subst h
          refine ⟨rfl, ?_, rfl⟩
          simpa [List.isEmpty_iff] using hemp
        · exact ih (idx + 1) h

/-- The inner shape loop numbers its emitted entries consecutively from the
incoming `table_index` counter. -/
theorem map_tableIndex_slideTables (num : ℕ) (title : Option String)
    (shapes : List (Option (List (List String)))) (idx : ℕ) :
    (ApiPptx.extractSlideTables num title shapes idx).map
        (fun e => e.tableIndex) =
      List.range' idx
        (ApiPptx.extractSlideTables num title shapes idx).length := by
  induction shapes generalizing idx with
  | nil => simp [ApiPptx.extractSlideTables]
  | cons sh rest ih =>
    rcases sh with _ | t
    · exact ih idx
    · by_cases hemp : (ApiPptx.extract_table t).2.isEmpty
      · rw [ApiPptx.extractSlideTables, if_pos hemp]
        exact ih idx
      · rw [ApiPptx.extractSlideTables, if_neg hemp]
        simp only [List.map_cons, List.length_cons, List.range'_succ]
        rw [ih (idx + 1)]

/-- Every entry of the outer slide loop bears a slide number above the
running counter, a non-empty rows list, and a consistent `rowCount`. -/
theorem mem_extractAux (slides : List ApiPptx.Slide) (n : ℕ)
    (e : ApiPptx.TableEntry) (he : e ∈ ApiPptx.extractAux slides n) :
    n < e.slideNumber ∧ e.rows ≠ [] ∧ e.rowCount = e.rows.length := by
  induction slides generalizing n with
  | nil => simp [ApiPptx.extractAux] at he
  | cons sl rest ih =>
    rw [ApiPptx.extractAux] at he
    rcases List.mem_append.mp he with h | h
    · obtain ⟨h1, h2, h3⟩ := mem_slideTables (n + 1) sl.title sl.shapes 0 e h
      exact ⟨by omega, h2, h3⟩
    · obtain ⟨h1, h2, h3⟩ := ih (n + 1) h
      exact ⟨by omega, h2, h3⟩

/-- Restricted to any one slide number, the emitted table indices are
exactly `0, 1, ..., k-1`. -/
theorem filter_extractAux (slides : List ApiPptx.Slide) (n s : ℕ) :
    ((ApiPptx.extractAux slides n).filter
        (fun e => e.slideNumber == s)).map (fun e => e.tableIndex) =
      List.range (((ApiPptx.extractAux slides n).filter
        (fun e => e.slideNumber == s)).length) := by
  induction slides generalizing n with
  | nil => simp [ApiPptx.extractAux]
  | cons sl rest ih =>
    rw [ApiPptx.extractAux, List.filter_append, List.map_append]
    by_cases hs : s = n + 1
    · have hA : (ApiPptx.extractSlideTables (n + 1) sl.title sl.shapes 0).filter
          (fun e => e.slideNumber == s) =
          ApiPptx.extractSlideTables (n + 1) sl.title sl.shapes 0 := by
        apply List.filter_eq_self.mpr
        intro a ha
        have := (mem_slideTables (n + 1) sl.title sl.shapes 0 a ha).1
        simp [this, hs]
      have hB : (ApiPptx.extractAux rest (n + 1)).filter
          (fun e => e.slideNumber == s) = [] := by
        apply List.filter_eq_nil_iff.mpr
        intro a ha
        have := (mem_extractAux rest (n + 1) a ha).1
        simp only [beq_iff_eq]
        omega
      rw [hA, hB, map_tableIndex_slideTables]
      simp [List.range_eq_range']
    · have hA : (ApiPptx.extractSlideTables (n + 1) sl.title sl.shapes 0).filter
          (fun e => e.slideNumber == s) = [] := by
        apply List.filter_eq_nil_iff.mpr
        intro a ha
        have := (mem_slideTables (n + 1) sl.title sl.shapes 0 a ha).1
        simp only [beq_iff_eq]
        omega
      rw [hA]
      simpa using ih (n + 1)

/-- C10: every table entry `extract_presentation` outputs has a non-empty
rows list and `rowCount` equal to its length, and within each slide the
`tableIndex` values of the emitted entries are the consecutive integers
from 0, counting only tables with at least one data row (header-only and
empty tables are omitted and consume no index). -/
theorem extract_presentation_spec (slides : List ApiPptx.Slide) :
    (∀ e ∈ (ApiPptx.extract_presentation slides).tables,
        e.rows ≠ [] ∧ e.rowCount = e.rows.length) ∧
    ∀ s : ℕ,
      ((ApiPptx.extract_presentation slides).tables.filter
          (fun e => e.slideNumber == s)).map (fun e => e.tableIndex) =
        List.range (((ApiPptx.extract_presentation slides).tables.filter
          (fun e => e.slideNumber == s)).length) := by
  constructor
  · intro e he
    exact (mem_extractAux slides 0 e he).2
  · intro s
    exact filter_extractAux slides 0 s

/-- C10 witness: a one-slide presentation holding one two-row table and one
non-table shape yields exactly the entry with slide number 1 and table
index 0. -/
theorem extract_presentation_spec_witness :
    (({ slideNumber := 1, slideTitle := some "S", tableIndex := 0, headers := ["h".trim], rows := [[("h".trim, "v".trim)]], rowCount := 1 } : ApiPptx.TableEntry).rows ≠ [] ∧ ({ slideNumber := 1, slideTitle := some "S", tableIndex := 0, headers := ["h".trim], rows := [[("h".trim, "v".trim)]], rowCount := 1 } : ApiPptx.TableEntry).rowCount = ({ slideNumber := 1, slideTitle := some "S", tableIndex := 0, headers := ["h".trim], rows := [[("h".trim, "v".trim)]], rowCount := 1 } : ApiPptx.TableEntry).rows.length) ∧
    ((ApiPptx.extract_presentation [{ title := some "S", shapes := [some [["h"], ["v"]], none] }]).tables.filter (fun e => e.slideNumber == 1)).map (fun e => e.tableIndex) =
      List.range (((ApiPptx.extract_presentation [{ title := some "S", shapes := [some [["h"], ["v"]], none] }]).tables.filter (fun e => e.slideNumber == 1)).length) :=
  ⟨(extract_presentation_spec [{ title := some "S", shapes := [some [["h"], ["v"]], none] }]).1
      { slideNumber := 1, slideTitle := some "S", tableIndex := 0, headers := ["h".trim], rows := [[("h".trim, "v".trim)]], rowCount := 1 }
      ((show (ApiPptx.extract_presentation [{ title := some "S", shapes := [some [["h"], ["v"]], none] }]).tables = [{ slideNumber := 1, slideTitle := some "S", tableIndex := 0, headers := ["h".trim], rows := [[("h".trim, "v".trim)]], rowCount := 1 }] from rfl) ▸ List.mem_singleton.mpr rfl),
   (extract_presentation_spec [{ title := some "S", shapes := [some [["h"], ["v"]], none] }]).2 1⟩
